import Mathlib

/-!
Verification of the study-battle bot's ranking/overtake core.

The development shallowly embeds the persistent state of `src/api/database.py`
(the `users`, `daily_stats`, `lifetime_stats`, `daily_reset_log` and
`special_message_rights` tables) together with the operations of
`DatabaseManager`, and the displaced-competitor scan inside
`BotHandlers.check_leaderboard_changes` from `src/api/bot_handlers.py`.

Tables are lists of row structures; the reset log is modelled by the number of
its entries; `AUTOINCREMENT` ids are modelled by a `next_right_id` counter;
row timestamps that no proved property depends on are omitted, except
`created_at` on message rights, which is an abstract `Nat` supplied by the
caller (the SQL fills it with `CURRENT_TIMESTAMP`).
-/

/-- Row of the `users` table: `user_id, username, first_name, last_name`. -/
structure UserRow where
  user_id : Int
  username : Option String
  first_name : Option String
  last_name : Option String
deriving DecidableEq

/-- Row of `daily_stats` / `lifetime_stats`: user id together with the counter
(`questions_solved` resp. `total_questions`). -/
structure StatRow where
  user_id : Int
  count : Int
deriving DecidableEq

/-- Row of the `special_message_rights` table. -/
structure RightRow where
  id : Nat
  user_id : Int
  outranked_user_id : Int
  old_position : Nat
  new_position : Nat
  used : Bool
  created_at : Nat
deriving DecidableEq

/-- The whole persistent state of the bot's database. -/
structure DB where
  users : List UserRow
  daily_stats : List StatRow
  lifetime_stats : List StatRow
  reset_log : Nat
  rights : List RightRow
  next_right_id : Nat
deriving DecidableEq

/-- The empty database, as produced by `init_database`. -/
def emptyDB : DB :=
  { users := [], daily_stats := [], lifetime_stats := [], reset_log := 0,
    rights := [], next_right_id := 1 }

/-- Value of `SELECT count FROM stats WHERE user_id = ?` on a stat table. -/
def lookupStat (stats : List StatRow) (uid : Int) : Option Int :=
  (stats.find? (fun s => s.user_id == uid)).map (fun s => s.count)

/-- Effect of `INSERT OR REPLACE INTO stats (user_id, count) VALUES (?, ?)`:
the row keyed by `uid` is replaced when present and inserted otherwise. -/
def upsertStat (stats : List StatRow) (uid : Int) (v : Int) : List StatRow :=
  if stats.any (fun s => s.user_id == uid) then
    stats.map (fun s => if s.user_id == uid then ⟨uid, v⟩ else s)
  else
    stats ++ [⟨uid, v⟩]

/-- Whether `SELECT user_id FROM users WHERE user_id = ?` finds a row. -/
def isRegistered (db : DB) (uid : Int) : Bool :=
  db.users.any (fun u => u.user_id == uid)

/-- `DatabaseManager.register_user` (database.py lines 75-113): update the name
fields of an existing user, or insert the user and `INSERT OR IGNORE` zero
rows into both stat tables. -/
def register_user (db : DB) (uid : Int) (un fn ln : Option String) : Bool × DB :=
  if isRegistered db uid then
    (true,
      { db with
        users := db.users.map (fun u =>
          if u.user_id == uid then
            { u with username := un, first_name := fn, last_name := ln }
          else u) })
  else
    (true,
      { db with
        users := db.users ++ [⟨uid, un, fn, ln⟩],
        daily_stats :=
          if db.daily_stats.any (fun s => s.user_id == uid) then db.daily_stats
          else db.daily_stats ++ [⟨uid, 0⟩],
        lifetime_stats :=
          if db.lifetime_stats.any (fun s => s.user_id == uid) then db.lifetime_stats
          else db.lifetime_stats ++ [⟨uid, 0⟩] })

/-- `DatabaseManager.update_solved_questions` (database.py lines 115-159):
fails when the user is unknown; otherwise adds the delta to the daily counter,
sets the lifetime counter to `max 0 (old + delta)`, and finally zeroes the
daily counter when the addition left it negative. -/
def update_solved_questions (db : DB) (uid : Int) (questions_count : Int) : Bool × DB :=
  if isRegistered db uid then
    let daily1 := upsertStat db.daily_stats uid
      ((lookupStat db.daily_stats uid).getD 0 + questions_count)
    let new_lifetime := max 0 ((lookupStat db.lifetime_stats uid).getD 0 + questions_count)
    let lifetime1 := upsertStat db.lifetime_stats uid new_lifetime
    let daily2 :=
      match lookupStat daily1 uid with
      | some v => if v < 0 then upsertStat daily1 uid 0 else daily1
      | none => daily1
    (true, { db with daily_stats := daily2, lifetime_stats := lifetime1 })
  else
    (false, db)

/-- `DatabaseManager.reset_daily_stats` (database.py lines 257-278): zero every
row of `daily_stats` and append one row to `daily_reset_log`. -/
def reset_daily_stats (db : DB) : Bool × DB :=
  (true,
    { db with
      daily_stats := db.daily_stats.map (fun s => ⟨s.user_id, 0⟩),
      reset_log := db.reset_log + 1 })

/-- `DatabaseManager.store_special_message_right` (database.py lines 338-369):
append an unconsumed right; `AUTOINCREMENT` assigns the next fresh id. -/
def store_special_message_right (db : DB) (uid outranked_uid : Int)
    (old_pos new_pos : Nat) (now : Nat) : Bool × DB :=
  (true,
    { db with
      rights := db.rights ++
        [⟨db.next_right_id, uid, outranked_uid, old_pos, new_pos, false, now⟩],
      next_right_id := db.next_right_id + 1 })

/-- `DatabaseManager.use_message_right` (database.py lines 390-405):
`UPDATE special_message_rights SET used = TRUE WHERE id = ?`. -/
def use_message_right (db : DB) (rid : Nat) : Bool × DB :=
  (true,
    { db with
      rights := db.rights.map (fun r =>
        if r.id == rid then { r with used := true } else r) })

/-- The rows satisfying `WHERE user_id = ? AND used = FALSE` in
`get_unused_message_right` (database.py lines 371-388). -/
def unusedRights (db : DB) (uid : Int) : List RightRow :=
  db.rights.filter (fun r => r.user_id == uid && r.used == false)

/-- Entry of a leaderboard snapshot: `(user_id, display_name, score)`. -/
structure Entry where
  user_id : Int
  name : String
  score : Int
deriving DecidableEq

/-- SQL `COALESCE(u.username, u.first_name, dflt)`. -/
def coalesceName (u : UserRow) (dflt : String) : String :=
  match u.username with
  | some s => s
  | none =>
    match u.first_name with
    | some s => s
    | none => dflt

/-- The join/filter stage shared by the two leaderboard queries
(database.py lines 161-208): join `daily_stats` with `users`, keep rows with
positive score whose `COALESCE(username, first_name, '')` is not exactly
`"Demo User"`, and compute the display name with fallback `"Unknown User"`. -/
def leaderboardRows (db : DB) : List Entry :=
  db.daily_stats.filterMap (fun d =>
    match db.users.find? (fun u => u.user_id == d.user_id) with
    | some u =>
      if (0 : Int) < d.count ∧ coalesceName u "" ≠ "Demo User" then
        some ⟨u.user_id, coalesceName u "Unknown User", d.count⟩
      else none
    | none => none)

/-- Descending-score order used by `ORDER BY questions_solved DESC`. -/
def scoreDesc (a b : Entry) : Prop := b.score ≤ a.score

instance : DecidableRel scoreDesc := fun a b => inferInstanceAs (Decidable (b.score ≤ a.score))

instance : IsTotal Entry scoreDesc := ⟨fun a b => le_total b.score a.score⟩

instance : IsTrans Entry scoreDesc := ⟨fun _ _ _ h1 h2 => le_trans h2 h1⟩

/-- `DatabaseManager.get_daily_leaderboard_with_ids` (database.py lines
161-184): filter, order by score descending, truncate to `limit`. -/
def get_daily_leaderboard_with_ids (db : DB) (limit : Nat) : List Entry :=
  (List.insertionSort scoreDesc (leaderboardRows db)).take limit

/-- `DatabaseManager.get_daily_leaderboard` (database.py lines 186-208): the
same query without the id column. -/
def get_daily_leaderboard (db : DB) (limit : Nat) : List (String × Int) :=
  ((List.insertionSort scoreDesc (leaderboardRows db)).take limit).map
    (fun e => (e.name, e.score))

/-- The position-finding loop
`for i, (uid, name, score) in enumerate(lb, 1): if uid == user_id: pos = i; break`
of `get_user_position_change`, carrying the 1-based counter `i`. -/
def findPosAux (uid : Int) (i : Nat) : List Entry → Option Nat
  | [] => none
  | e :: rest => if e.user_id == uid then some i else findPosAux uid (i + 1) rest

/-- 1-based position of the first entry for `uid` in a snapshot. -/
def findPos (uid : Int) (lb : List Entry) : Option Nat :=
  findPosAux uid 1 lb

/-- `DatabaseManager.get_user_position_change` (database.py lines 308-336). -/
def get_user_position_change (uid : Int) (old_lb new_lb : List Entry) :
    Option (Nat × Nat) :=
  match findPos uid old_lb, findPos uid new_lb with
  | some old_pos, some new_pos =>
    if new_pos < old_pos then some (old_pos, new_pos) else none
  | none, some new_pos => some (old_lb.length + 1, new_pos)
  | _, none => none

/-- The inner loop of the displaced-competitor scan in
`check_leaderboard_changes` (bot_handlers.py lines 330-338): whether some
1-based position `i` of `uid` in the current snapshot satisfies `i > new_pos`. -/
def nowRankedBelow (uid : Int) (new_lb : List Entry) (new_pos : Nat) : Bool :=
  new_lb.enum.any (fun ie => ie.2.user_id == uid && new_pos < ie.1 + 1)

/-- The outer loop of the displaced-competitor scan in
`check_leaderboard_changes` (bot_handlers.py lines 330-338): walk the previous
snapshot and overwrite `outranked_user` at every entry, other than the acting
user, that the inner scan finds ranked below `new_pos` in the current
snapshot. The outer loop has no break, so every later match overwrites an
earlier one. -/
def find_outranked (user_id : Int) (last_leaderboard new_leaderboard : List Entry)
    (new_pos : Nat) : Option (Int × String) :=
  last_leaderboard.foldl
    (fun acc e =>
      if e.user_id != user_id && nowRankedBelow e.user_id new_leaderboard new_pos then
        some (e.user_id, e.name)
      else acc)
    none

/-- ASCII lowercase of a character, used to express case-insensitive string
comparison in statements about the demo-exclusion predicate. -/
def lowerChar (c : Char) : Char :=
  if 'A' ≤ c ∧ c ≤ 'Z' then Char.ofNat (c.toNat + 32) else c

/-- ASCII lowercase of a string. -/
def lowerStr (s : String) : String := String.mk (s.data.map lowerChar)

/-- Apply `update_solved_questions` for one user over a list of deltas, with no
interleaved reset. -/
def applyDeltas (db : DB) (uid : Int) : List Int → DB
  | [] => db
  | c :: cs => applyDeltas (update_solved_questions db uid c).2 uid cs

/-- The lifetime counter of a user, with the `COALESCE` fallback 0 used by
`get_user_stats`. -/
def lifetimeOf (db : DB) (uid : Int) : Int :=
  (lookupStat db.lifetime_stats uid).getD 0

/-- Iterated floor-clamped delta application
`new = max 0 (old + delta)`, the update rule of the lifetime counter. -/
def clampFold (init : Int) (ds : List Int) : Int :=
  ds.foldl (fun a d => max 0 (a + d)) init

/-- Every row id of the rights table is below the `AUTOINCREMENT` counter; true
of every database reachable through the operations. -/
def WellFormedRights (db : DB) : Prop :=
  ∀ r ∈ db.rights, r.id < db.next_right_id

/-- All score counters at rest are non-negative. -/
def NonNegDB (db : DB) : Prop :=
  (∀ s ∈ db.daily_stats, 0 ≤ s.count) ∧ (∀ s ∈ db.lifetime_stats, 0 ≤ s.count)

/-- One state-changing database operation, for reasoning about arbitrary
operation sequences. -/
inductive DbOp where
  | registerOp (uid : Int) (un fn ln : Option String)
  | updateOp (uid : Int) (cnt : Int)
  | resetOp
  | grantOp (uid outranked_uid : Int) (old_pos new_pos : Nat) (now : Nat)
  | consumeOp (rid : Nat)
deriving DecidableEq

/-- Interpret one operation on the database state. -/
def applyOp (db : DB) : DbOp → DB
  | .registerOp uid un fn ln => (register_user db uid un fn ln).2
  | .updateOp uid cnt => (update_solved_questions db uid cnt).2
  | .resetOp => (reset_daily_stats db).2
  | .grantOp uid o op np t => (store_special_message_right db uid o op np t).2
  | .consumeOp rid => (use_message_right db rid).2

/-- Interpret a sequence of operations, oldest first. -/
def applyOps (db : DB) (ops : List DbOp) : DB :=
  ops.foldl applyOp db

/-- The previous snapshot of the worked example: A:10, B:8, C:5. -/
def prevEx : List Entry := [⟨1, "A", 10⟩, ⟨2, "B", 8⟩, ⟨3, "C", 5⟩]

/-- The current snapshot of the worked example: B:9, A:10, C:5. -/
def curEx : List Entry := [⟨2, "B", 9⟩, ⟨1, "A", 10⟩, ⟨3, "C", 5⟩]

/-- A database whose sole leaderboard-visible user is named `demo user`,
differing from the sentinel `Demo User` only in letter case; a second user
named exactly `Demo User` is also present. -/
def exDb3 : DB :=
  { users := [⟨1, some "demo user", none, none⟩, ⟨2, some "Demo User", none, none⟩],
    daily_stats := [⟨1, 5⟩, ⟨2, 7⟩],
    lifetime_stats := [⟨1, 5⟩, ⟨2, 7⟩],
    reset_log := 0, rights := [], next_right_id := 1 }

/-- A database holding exactly one freshly registered user with id 1. -/
def exDb4 : DB := (register_user emptyDB 1 (some "u") none none).2

/-- A database holding one unconsumed special-message right with id 1. -/
def exDb9 : DB := (store_special_message_right emptyDB 1 2 2 1 0).2

lemma lookupStat_upsert_self (s : List StatRow) (uid : Int) (v : Int) :
    lookupStat (upsertStat s uid v) uid = some v := by
  unfold upsertStat
  by_cases h : s.any (fun r => r.user_id == uid)
  · rw [if_pos h]
    induction s with
    | nil => simp at h
    | cons a rest ih =>
      by_cases ha : a.user_id == uid
      · simp [lookupStat, List.find?, ha]
      · simp only [List.any_cons, ha, Bool.false_or] at h
        simpa [lookupStat, List.find?, ha] using ih h
  · rw [if_neg h]
    have h' : s.any (fun r => r.user_id == uid) = false := by
      simpa using h
    have hnone : s.find? (fun r => r.user_id == uid) = none := by
      rw [List.find?_eq_none]
      intro x hx
      have := List.any_eq_false.mp h' x hx
      simpa using this
    simp [lookupStat, List.find?_append, hnone]

lemma mem_upsertStat {s : List StatRow} {uid v : Int} {r : StatRow}
    (h : r ∈ upsertStat s uid v) :
    (r ∈ s ∧ (r.user_id == uid) = false) ∨ r = ⟨uid, v⟩ := by
  unfold upsertStat at h
  by_cases hc : s.any (fun x => x.user_id == uid)
  · rw [if_pos hc] at h
    rw [List.mem_map] at h
    obtain ⟨a, ha, hfa⟩ := h
    by_cases hau : a.user_id == uid
    · right
      rw [if_pos hau] at hfa
      exact hfa.symm
    · left
      rw [if_neg hau] at hfa
      subst hfa
      exact ⟨ha, by simpa using hau⟩
  · rw [if_neg hc] at h
    have hc' : s.any (fun x => x.user_id == uid) = false := by simpa using hc
    rcases List.mem_append.mp h with h | h
    · left
      refine ⟨h, ?_⟩
      have := List.any_eq_false.mp hc' r h
      simpa using this
    · right
      simpa using h

lemma update_eq (db : DB) (uid cnt : Int) (h : isRegistered db uid = true) :
    update_solved_questions db uid cnt =
      (true,
        { db with
          daily_stats :=
            if (lookupStat db.daily_stats uid).getD 0 + cnt < 0 then
              upsertStat
                (upsertStat db.daily_stats uid ((lookupStat db.daily_stats uid).getD 0 + cnt))
                uid 0
            else
              upsertStat db.daily_stats uid ((lookupStat db.daily_stats uid).getD 0 + cnt),
          lifetime_stats :=
            upsertStat db.lifetime_stats uid
              (max 0 ((lookupStat db.lifetime_stats uid).getD 0 + cnt)) }) := by
  unfold update_solved_questions
  rw [if_pos h]
  simp only [lookupStat_upsert_self]

lemma update_users (db : DB) (uid cnt : Int) :
    (update_solved_questions db uid cnt).2.users = db.users := by
  unfold update_solved_questions
  split <;> rfl

lemma update_rights (db : DB) (uid cnt : Int) :
    (update_solved_questions db uid cnt).2.rights = db.rights ∧
      (update_solved_questions db uid cnt).2.next_right_id = db.next_right_id := by
  unfold update_solved_questions
  split <;> exact ⟨rfl, rfl⟩

lemma isRegistered_update (db : DB) (uid cnt : Int) (u : Int) :
    isRegistered (update_solved_questions db uid cnt).2 u = isRegistered db u := by
  unfold isRegistered
  rw [update_users]

lemma lifetimeOf_update (db : DB) (uid cnt : Int) (h : isRegistered db uid = true) :
    lifetimeOf (update_solved_questions db uid cnt).2 uid =
      max 0 (lifetimeOf db uid + cnt) := by
  rw [update_eq db uid cnt h]
  simp [lifetimeOf, lookupStat_upsert_self]

lemma clampFold_cons (init d : Int) (ds : List Int) :
    clampFold init (d :: ds) = clampFold (max 0 (init + d)) ds := rfl

lemma clampFold_nonneg (ds : List Int) : ∀ (init : Int), 0 ≤ init → 0 ≤ clampFold init ds := by
  induction ds with
  | nil => intro init h; simpa [clampFold] using h
  | cons d ds ih =>
    intro init _
    rw [clampFold_cons]
    exact ih _ (le_max_left _ _)

lemma le_clampFold (ds : List Int) : ∀ (init : Int), 0 ≤ init →
    max 0 (init + ds.sum) ≤ clampFold init ds := by
  induction ds with
  | nil => intro init h; simp [clampFold]; omega
  | cons d ds ih =>
    intro init h
    rw [clampFold_cons, List.sum_cons]
    calc max 0 (init + (d + ds.sum)) ≤ max 0 (max 0 (init + d) + ds.sum) := by
          refine max_le_max le_rfl ?_
          have := le_max_right 0 (init + d)
          omega
      _ ≤ clampFold (max 0 (init + d)) ds := ih _ (le_max_left _ _)

lemma clampFold_eq_sum (ds : List Int) : ∀ (init : Int), 0 ≤ init →
    (∀ pre suf, ds = pre ++ suf → 0 ≤ init + pre.sum) →
    clampFold init ds = init + ds.sum := by
  induction ds with
  | nil => intro init h hp; simp [clampFold]
  | cons d ds ih =>
    intro init h hp
    have hd : 0 ≤ init + d := by
      have := hp [d] ds rfl
      simpa using this
    have hrec := ih (init + d) hd (fun pre suf hps => by
      have := hp (d :: pre) suf (by rw [hps, List.cons_append])
      simp only [List.sum_cons] at this ⊢
      omega)
    rw [clampFold_cons, max_eq_right hd, hrec, List.sum_cons]
    ring

lemma lifetimeOf_applyDeltas (uid : Int) (ds : List Int) : ∀ (db : DB),
    isRegistered db uid = true →
    lifetimeOf (applyDeltas db uid ds) uid = clampFold (lifetimeOf db uid) ds := by
  induction ds with
  | nil => intro db _; rfl
  | cons d ds ih =>
    intro db h
    have hstep : applyDeltas db uid (d :: ds) =
        applyDeltas (update_solved_questions db uid d).2 uid ds := rfl
    rw [hstep, ih _ (by rw [isRegistered_update]; exact h),
      lifetimeOf_update db uid d h, clampFold_cons]

lemma foldl_overwrite {α : Type} (f : Entry → Bool) (g : Entry → α) :
    ∀ (l : List Entry) (acc : Option α),
      l.foldl (fun a e => if f e then some (g e) else a) acc =
        match l.reverse.find? f with
        | some e => some (g e)
        | none => acc := by
  intro l
  induction l with
  | nil => intro acc; rfl
  | cons e rest ih =>
    intro acc
    rw [List.foldl_cons, ih, List.reverse_cons, List.find?_append]
    cases hfind : rest.reverse.find? f with
    | some x => simp
    | none =>
      cases hf : f e <;> simp [List.find?, hf]

lemma reverse_find_eq_filter_getLast (f : Entry → Bool) :
    ∀ l : List Entry, l.reverse.find? f = (l.filter f).getLast? := by
  intro l
  induction l with
  | nil => rfl
  | cons e rest ih =>
    rw [List.reverse_cons, List.find?_append, List.filter_cons]
    cases hf : f e with
    | true =>
      rw [ih]
      cases hl : (rest.filter f).getLast? with
      | some x => simp [List.getLast?_cons, hl]
      | none =>
        have : rest.filter f = [] := by
          cases hrf : rest.filter f with
          | nil => rfl
          | cons a as => rw [hrf] at hl; simp [List.getLast?] at hl
        simp [this, List.find?, hf]
    | false =>
      rw [ih]
      cases hl : (rest.filter f).getLast? with
      | some x => simp [hl]
      | none => simp [List.find?, hf, hl]

lemma reset_frame (db : DB) :
    (reset_daily_stats db).2.users = db.users ∧
      (reset_daily_stats db).2.lifetime_stats = db.lifetime_stats ∧
      (reset_daily_stats db).2.rights = db.rights ∧
      (reset_daily_stats db).2.next_right_id = db.next_right_id := by
  exact ⟨rfl, rfl, rfl, rfl⟩

lemma register_rights (db : DB) (uid : Int) (un fn ln : Option String) :
    (register_user db uid un fn ln).2.rights = db.rights ∧
      (register_user db uid un fn ln).2.next_right_id = db.next_right_id := by
  unfold register_user
  split <;> exact ⟨rfl, rfl⟩

/-- The invariant driving the consumed-stays-consumed argument: the id is below
the autoincrement counter and every row carrying it is marked used. -/
def ConsumedAt (rid : Nat) (db : DB) : Prop :=
  rid < db.next_right_id ∧ ∀ r ∈ db.rights, r.id = rid → r.used = true

lemma consumedAt_applyOp {rid : Nat} {db : DB} (h : ConsumedAt rid db) (o : DbOp) :
    ConsumedAt rid (applyOp db o) := by
  obtain ⟨hlt, hused⟩ := h
  cases o with
  | registerOp uid un fn ln =>
    refine ⟨?_, ?_⟩
    · show rid < (register_user db uid un fn ln).2.next_right_id
      rw [(register_rights db uid un fn ln).2]; exact hlt
    · show ∀ r ∈ (register_user db uid un fn ln).2.rights, r.id = rid → r.used = true
      rw [(register_rights db uid un fn ln).1]; exact hused
  | updateOp uid cnt =>
    refine ⟨?_, ?_⟩
    · show rid < (update_solved_questions db uid cnt).2.next_right_id
      rw [(update_rights db uid cnt).2]; exact hlt
    · show ∀ r ∈ (update_solved_questions db uid cnt).2.rights, r.id = rid → r.used = true
      rw [(update_rights db uid cnt).1]; exact hused
  | resetOp => exact ⟨hlt, hused⟩
  | grantOp uid o' op np t =>
    refine ⟨by simp [applyOp, store_special_message_right]; omega, ?_⟩
    intro r hr hid
    simp only [applyOp, store_special_message_right, List.mem_append,
      List.mem_singleton] at hr
    rcases hr with hr | hr
    · exact hused r hr hid
    · subst hr
      simp only at hid
      omega
  | consumeOp rid' =>
    refine ⟨hlt, ?_⟩
    intro r hr hid
    simp only [applyOp, use_message_right, List.mem_map] at hr
    obtain ⟨a, ha, hfa⟩ := hr
    by_cases hb : a.id == rid'
    · rw [if_pos hb] at hfa
      subst hfa
      rfl
    · rw [if_neg hb] at hfa
      subst hfa
      exact hused a ha hid

lemma consumedAt_applyOps {rid : Nat} (ops : List DbOp) : ∀ {db : DB},
    ConsumedAt rid db → ConsumedAt rid (applyOps db ops) := by
  induction ops with
  | nil => intro db h; exact h
  | cons o os ih =>
    intro db h
    exact ih (consumedAt_applyOp h o)

/-- C5: invoking `update_solved_questions` for a user id not present in the
users table returns failure (`false`) rather than raising, and leaves the
database — in particular every daily and lifetime counter — unchanged. -/
theorem spec5_unknown_user_fails (db : DB) (uid cnt : Int)
    (h : isRegistered db uid = false) :
    update_solved_questions db uid cnt = (false, db) := by
  unfold update_solved_questions
  rw [if_neg (by simp [h])]

/-- Witness for C5: the empty database with user id 1 and delta 5. -/
theorem spec5_unknown_user_fails_witness :
    isRegistered emptyDB 1 = false ∧
      update_solved_questions emptyDB 1 5 = (false, emptyDB) :=
  ⟨by decide, spec5_unknown_user_fails emptyDB 1 5 (by decide)⟩

/-- C7: one `reset_daily_stats` call zeroes every daily counter (keeping the
set of daily rows), appends exactly one reset-log entry and leaves every
lifetime counter unchanged; two calls in a row leave daily counters at zero
both times and append exactly two log entries. -/
theorem spec7_reset_daily (db : DB) :
    (reset_daily_stats db).1 = true ∧
    (∀ s ∈ (reset_daily_stats db).2.daily_stats, s.count = 0) ∧
    (reset_daily_stats db).2.daily_stats.map (fun s => s.user_id) =
      db.daily_stats.map (fun s => s.user_id) ∧
    (reset_daily_stats db).2.reset_log = db.reset_log + 1 ∧
    (reset_daily_stats db).2.lifetime_stats = db.lifetime_stats ∧
    (∀ s ∈ (reset_daily_stats (reset_daily_stats db).2).2.daily_stats, s.count = 0) ∧
    (reset_daily_stats (reset_daily_stats db).2).2.reset_log = db.reset_log + 2 ∧
    (reset_daily_stats (reset_daily_stats db).2).2.lifetime_stats = db.lifetime_stats := by
  refine ⟨rfl, ?_, ?_, rfl, rfl, ?_, rfl, rfl⟩
  · intro s hs
    simp only [reset_daily_stats, List.mem_map] at hs
    obtain ⟨a, _, ha⟩ := hs
    rw [← ha]
  · simp [reset_daily_stats, List.map_map]
  · intro s hs
    simp only [reset_daily_stats, List.mem_map] at hs
    obtain ⟨a, _, ha⟩ := hs
    rw [← ha]

/-- C10: `register_user` for a user id already present overwrites that user's
`username`, `first_name` and `last_name` with the supplied values (`none`
included), succeeds, and leaves the daily counters, the lifetime counters and
everything else unchanged. -/
theorem spec10_reregister_keeps_scores (db : DB) (uid : Int) (un fn ln : Option String)
    (h : isRegistered db uid = true) :
    register_user db uid un fn ln =
      (true,
        { db with
          users := db.users.map (fun u =>
            if u.user_id == uid then
              { u with username := un, first_name := fn, last_name := ln }
            else u) }) := by
  unfold register_user
  rw [if_pos h]

/-- Witness for C10: re-registering user 1 of `exDb4` with fresh names. -/
theorem spec10_reregister_keeps_scores_witness :
    isRegistered exDb4 1 = true ∧
      register_user exDb4 1 none (some "n") none =
        (true,
          { exDb4 with
            users := exDb4.users.map (fun u =>
              if u.user_id == 1 then
                { u with username := none, first_name := some "n", last_name := none }
              else u) }) :=
  ⟨by decide, spec10_reregister_keeps_scores exDb4 1 none (some "n") none (by decide)⟩

/-- C6: if every user's daily and lifetime counter is non-negative, then after
any single `update_solved_questions` (with any integer delta), any
`reset_daily_stats`, or any `register_user`, every daily and lifetime counter
is still non-negative. -/
theorem spec6_nonneg_invariant (db : DB) (h : NonNegDB db) :
    (∀ uid cnt, NonNegDB (update_solved_questions db uid cnt).2) ∧
    NonNegDB (reset_daily_stats db).2 ∧
    (∀ uid un fn ln, NonNegDB (register_user db uid un fn ln).2) := by
  obtain ⟨hd, hl⟩ := h
  refine ⟨?_, ?_, ?_⟩
  · intro uid cnt
    by_cases hreg : isRegistered db uid
    · rw [update_eq db uid cnt hreg]
      constructor
      · intro s hs
        by_cases hneg : (lookupStat db.daily_stats uid).getD 0 + cnt < 0
        · rw [if_pos hneg] at hs
          rcases mem_upsertStat hs with ⟨hs1, hne⟩ | rfl
          · rcases mem_upsertStat hs1 with ⟨hs2, _⟩ | heq
            · exact hd s hs2
            · rw [heq] at hne
              simp at hne
          · exact le_refl 0
        · rw [if_neg hneg] at hs
          rcases mem_upsertStat hs with ⟨hs1, _⟩ | rfl
          · exact hd s hs1
          · show (0 : Int) ≤ (lookupStat db.daily_stats uid).getD 0 + cnt
            omega
      · intro s hs
        rcases mem_upsertStat hs with ⟨hs1, _⟩ | rfl
        · exact hl s hs1
        · exact le_max_left 0 _
    · have hreg' : isRegistered db uid = false := by simpa using hreg
      unfold update_solved_questions
      rw [if_neg (by simp [hreg'])]
      exact ⟨hd, hl⟩
  · constructor
    · intro s hs
      simp only [reset_daily_stats, List.mem_map] at hs
      obtain ⟨a, _, ha⟩ := hs
      rw [← ha]
    · exact hl
  · intro uid un fn ln
    unfold register_user
    by_cases hreg : isRegistered db uid
    · rw [if_pos hreg]
      exact ⟨hd, hl⟩
    · rw [if_neg hreg]
      constructor
      · intro s hs
        by_cases hda : db.daily_stats.any (fun x => x.user_id == uid)
        · rw [if_pos hda] at hs
          exact hd s hs
        · rw [if_neg hda] at hs
          rcases List.mem_append.mp hs with hmem | hmem
          · exact hd s hmem
          · rw [List.mem_singleton.mp hmem]
      · intro s hs
        by_cases hla : db.lifetime_stats.any (fun x => x.user_id == uid)
        · rw [if_pos hla] at hs
          exact hl s hs
        · rw [if_neg hla] at hs
          rcases List.mem_append.mp hs with hmem | hmem
          · exact hl s hmem
          · rw [List.mem_singleton.mp hmem]

/-- Witness for C6 at the one-user database `exDb4`. -/
theorem spec6_nonneg_invariant_witness :
    NonNegDB exDb4 ∧
      ((∀ uid cnt, NonNegDB (update_solved_questions exDb4 uid cnt).2) ∧
        NonNegDB (reset_daily_stats exDb4).2 ∧
        (∀ uid un fn ln, NonNegDB (register_user exDb4 uid un fn ln).2)) :=
  ⟨by unfold NonNegDB; decide, spec6_nonneg_invariant exDb4 (by unfold NonNegDB; decide)⟩

/-- C4 (amended): for a registered user with non-negative lifetime counter, the
lifetime counter stays non-negative after every step of a delta sequence
applied with no interleaved reset, and after the whole sequence it equals the
iterated clamp `new = max 0 (old + delta)` of the deltas over the starting
value; starting from 0 this is at least `max 0 (sum of deltas)`, with equality
whenever every prefix of the deltas has non-negative sum. -/
theorem spec4_lifetime_clamped (db : DB) (uid : Int) (ds : List Int)
    (hreg : isRegistered db uid = true) (h0 : 0 ≤ lifetimeOf db uid) :
    (∀ pre suf, ds = pre ++ suf → 0 ≤ lifetimeOf (applyDeltas db uid pre) uid) ∧
    lifetimeOf (applyDeltas db uid ds) uid = clampFold (lifetimeOf db uid) ds ∧
    (lifetimeOf db uid = 0 →
      max 0 ds.sum ≤ lifetimeOf (applyDeltas db uid ds) uid) ∧
    (lifetimeOf db uid = 0 → (∀ pre suf, ds = pre ++ suf → 0 ≤ pre.sum) →
      lifetimeOf (applyDeltas db uid ds) uid = max 0 ds.sum) := by
  have hmain := lifetimeOf_applyDeltas uid ds db hreg
  refine ⟨?_, hmain, ?_, ?_⟩
  · intro pre suf hps
    rw [lifetimeOf_applyDeltas uid pre db hreg]
    exact clampFold_nonneg pre _ h0
  · intro hz
    rw [hmain, hz]
    have := le_clampFold ds 0 le_rfl
    simpa using this
  · intro hz hp
    rw [hmain, hz]
    have heq := clampFold_eq_sum ds 0 le_rfl (fun pre suf hps => by
      have := hp pre suf hps
      omega)
    rw [heq]
    have hsum : 0 ≤ ds.sum := by
      have := hp ds [] (by simp)
      omega
    omega

/-- Counterexample for C4 as stated: for the freshly registered user of
`exDb4`, the delta sequence `[-1, 1]` leaves the lifetime score at 1, while
`max 0 (sum of deltas) = 0`. -/
theorem spec4_counterexample :
    isRegistered exDb4 1 = true ∧
    lifetimeOf exDb4 1 = 0 ∧
    lifetimeOf (applyDeltas exDb4 1 [-1, 1]) 1 = 1 ∧
    max 0 (List.sum [(-1 : Int), 1]) = 0 ∧
    lifetimeOf (applyDeltas exDb4 1 [-1, 1]) 1 ≠ max 0 (List.sum [(-1 : Int), 1]) := by
  decide

/-- Witness for C4 (amended) at `exDb4` with deltas `[-1, 1]`. -/
theorem spec4_lifetime_clamped_witness :
    isRegistered exDb4 1 = true ∧ 0 ≤ lifetimeOf exDb4 1 ∧
      ((∀ pre suf, ([-1, 1] : List Int) = pre ++ suf →
          0 ≤ lifetimeOf (applyDeltas exDb4 1 pre) 1) ∧
        lifetimeOf (applyDeltas exDb4 1 [-1, 1]) 1 =
          clampFold (lifetimeOf exDb4 1) [-1, 1] ∧
        (lifetimeOf exDb4 1 = 0 →
          max 0 (List.sum ([-1, 1] : List Int)) ≤
            lifetimeOf (applyDeltas exDb4 1 [-1, 1]) 1) ∧
        (lifetimeOf exDb4 1 = 0 →
          (∀ pre suf, ([-1, 1] : List Int) = pre ++ suf → 0 ≤ pre.sum) →
          lifetimeOf (applyDeltas exDb4 1 [-1, 1]) 1 =
            max 0 (List.sum ([-1, 1] : List Int)))) :=
  ⟨by decide, by decide, spec4_lifetime_clamped exDb4 1 [-1, 1] (by decide) (by decide)⟩

/-- C1 (amended): whenever the rank-change detection emits an overtake event,
the displaced competitor reported by the scan in `check_leaderboard_changes`
is the LAST user encountered when scanning the previous snapshot in its
original ranked order (skipping the acting user) whose 1-based position in the
current snapshot is strictly greater than the acting user's new rank — the
outer loop has no break, so later matches overwrite earlier ones. -/
theorem spec1_displaced_is_last_match (uid : Int) (prev cur : List Entry)
    (old_pos new_pos : Nat)
    (_h : get_user_position_change uid prev cur = some (old_pos, new_pos)) :
    find_outranked uid prev cur new_pos =
      ((prev.filter
          (fun e => e.user_id != uid && nowRankedBelow e.user_id cur new_pos)).getLast?).map
        (fun e => (e.user_id, e.name)) := by
  unfold find_outranked
  rw [foldl_overwrite, reverse_find_eq_filter_getLast]
  cases hl : (prev.filter
      (fun e => e.user_id != uid && nowRankedBelow e.user_id cur new_pos)).getLast? with
  | some e => simp [hl]
  | none => simp [hl]

/-- Counterexample for C1 as stated: on the spec's own example
(previous = A:10, B:8, C:5; current = B:9, A:10, C:5; acting user B) the first
qualifying user in previous-snapshot order is A, but the code reports C. -/
theorem spec1_counterexample :
    get_user_position_change 2 prevEx curEx = some (2, 1) ∧
    List.find? (fun e => e.user_id != 2 && nowRankedBelow e.user_id curEx 1) prevEx =
      some ⟨1, "A", 10⟩ ∧
    find_outranked 2 prevEx curEx 1 = some (3, "C") ∧
    find_outranked 2 prevEx curEx 1 ≠ some (1, "A") := by
  decide

/-- Witness for C1 (amended) on the worked example. -/
theorem spec1_displaced_is_last_match_witness :
    get_user_position_change 2 prevEx curEx = some (2, 1) ∧
      find_outranked 2 prevEx curEx 1 =
        ((prevEx.filter
            (fun e => e.user_id != 2 && nowRankedBelow e.user_id curEx 1)).getLast?).map
          (fun e => (e.user_id, e.name)) :=
  ⟨by decide, spec1_displaced_is_last_match 2 prevEx curEx 2 1 (by decide)⟩

/-- C2: `get_user_position_change` returns a change record exactly when either
the acting user appears in both snapshots with a strictly smaller 1-based
position in the current one — yielding that pair of positions — or the acting
user is absent from the previous snapshot and present in the current one —
yielding (length of previous snapshot + 1, new position); in every other case
it returns none. -/
theorem spec2_rank_change_iff (uid : Int) (old_lb new_lb : List Entry) (p : Nat × Nat) :
    get_user_position_change uid old_lb new_lb = some p ↔
      ((∃ old_pos new_pos, findPos uid old_lb = some old_pos ∧
          findPos uid new_lb = some new_pos ∧ new_pos < old_pos ∧
          p = (old_pos, new_pos)) ∨
        (findPos uid old_lb = none ∧
          ∃ new_pos, findPos uid new_lb = some new_pos ∧
            p = (old_lb.length + 1, new_pos))) := by
  unfold get_user_position_change
  cases h1 : findPos uid old_lb with
  | some op =>
    cases h2 : findPos uid new_lb with
    | some np =>
      change (if np < op then some (op, np) else none) = some p ↔ _
      by_cases hlt : np < op
      · rw [if_pos hlt]
        constructor
        · intro hp
          left
          exact ⟨op, np, rfl, rfl, hlt, (Option.some_injective _ hp).symm⟩
        · rintro (⟨a, b, ha, hb, _, hab⟩ | ⟨hnone, _⟩)
          · cases ha
            cases hb
            rw [hab]
          · cases hnone
      · rw [if_neg hlt]
        constructor
        · intro hp
          cases hp
        · rintro (⟨a, b, ha, hb, hba, _⟩ | ⟨hnone, _⟩)
          · cases ha
            cases hb
            exact absurd hba hlt
          · cases hnone
    | none =>
      change (none : Option (Nat × Nat)) = some p ↔ _
      constructor
      · intro hp
        cases hp
      · rintro (⟨a, b, _, hb, _, _⟩ | ⟨_, b, hb, _⟩)
        · cases hb
        · cases hb
  | none =>
    cases h2 : findPos uid new_lb with
    | some np =>
      change some (old_lb.length + 1, np) = some p ↔ _
      constructor
      · intro hp
        right
        exact ⟨rfl, np, rfl, (Option.some_injective _ hp).symm⟩
      · rintro (⟨a, b, ha, _, _, _⟩ | ⟨_, b, hb, hab⟩)
        · cases ha
        · cases hb
          rw [hab]
    | none =>
      change (none : Option (Nat × Nat)) = some p ↔ _
      constructor
      · intro hp
        cases hp
      · rintro (⟨a, b, _, hb, _, _⟩ | ⟨_, b, hb, _⟩)
        · cases hb
        · cases hb

lemma coalesceName_ne_demo (u : UserRow) (h : coalesceName u "" ≠ "Demo User") :
    coalesceName u "Unknown User" ≠ "Demo User" := by
  unfold coalesceName at h ⊢
  cases hu : u.username with
  | some s =>
    rw [hu] at h
    exact h
  | none =>
    rw [hu] at h
    cases hf : u.first_name with
    | some s =>
      rw [hf] at h
      exact h
    | none => decide

lemma mem_leaderboardRows {db : DB} {e : Entry} (h : e ∈ leaderboardRows db) :
    0 < e.score ∧ e.name ≠ "Demo User" := by
  unfold leaderboardRows at h
  rw [List.mem_filterMap] at h
  obtain ⟨d, _, hfd⟩ := h
  cases hfind : db.users.find? (fun u => u.user_id == d.user_id) with
  | some u =>
    rw [hfind] at hfd
    have hfd' :
        (if (0 : Int) < d.count ∧ coalesceName u "" ≠ "Demo User" then
          some (⟨u.user_id, coalesceName u "Unknown User", d.count⟩ : Entry)
        else none) = some e := hfd
    by_cases hc : (0 : Int) < d.count ∧ coalesceName u "" ≠ "Demo User"
    · rw [if_pos hc] at hfd'
      cases hfd'
      exact ⟨hc.1, coalesceName_ne_demo u hc.2⟩
    · rw [if_neg hc] at hfd'
      cases hfd'
  | none =>
    rw [hfind] at hfd
    cases hfd

/-- C3 (amended): for every limit, the daily leaderboard (both the id-bearing
variant and the display variant, the latter being the former without ids) is
sorted in descending score order, contains no entry with score ≤ 0, contains
no entry whose display name EXACTLY equals the sentinel "Demo User" (the SQL
comparison is case-sensitive), and has length ≤ limit. -/
theorem spec3_leaderboard_shape (db : DB) (limit : Nat) :
    List.Sorted scoreDesc (get_daily_leaderboard_with_ids db limit) ∧
    (∀ e ∈ get_daily_leaderboard_with_ids db limit, 0 < e.score) ∧
    (∀ e ∈ get_daily_leaderboard_with_ids db limit, e.name ≠ "Demo User") ∧
    (get_daily_leaderboard_with_ids db limit).length ≤ limit ∧
    get_daily_leaderboard db limit =
      (get_daily_leaderboard_with_ids db limit).map (fun e => (e.name, e.score)) := by
  refine ⟨?_, ?_, ?_, ?_, rfl⟩
  · exact List.Pairwise.sublist (List.take_sublist limit _)
      (List.sorted_insertionSort scoreDesc (leaderboardRows db))
  · intro e he
    have hmem : e ∈ List.insertionSort scoreDesc (leaderboardRows db) :=
      List.take_subset limit _ he
    exact (mem_leaderboardRows ((List.mem_insertionSort scoreDesc).mp hmem)).1
  · intro e he
    have hmem : e ∈ List.insertionSort scoreDesc (leaderboardRows db) :=
      List.take_subset limit _ he
    exact (mem_leaderboardRows ((List.mem_insertionSort scoreDesc).mp hmem)).2
  · rw [get_daily_leaderboard_with_ids, List.length_take]
    exact min_le_left _ _

/-- Counterexample for C3 as stated: in `exDb3` the user named `demo user`
(case differing from the sentinel only in letter case) passes the SQL filter
and appears on both leaderboard variants, so the case-insensitive exclusion
claimed by the spec does not hold. -/
theorem spec3_counterexample :
    get_daily_leaderboard_with_ids exDb3 10 = [⟨1, "demo user", 5⟩] ∧
    get_daily_leaderboard exDb3 10 = [("demo user", 5)] ∧
    lowerStr "demo user" = lowerStr "Demo User" ∧
    "demo user" ≠ "Demo User" := by
  decide

/-- C9: once a special-message right has been consumed via `use_message_right`,
no sequence of further database operations ever makes that right id appear
again among the unconsumed rights from which `get_unused_message_right`
selects, for any user; and a second `use_message_right` call on the same id
succeeds while changing nothing (no un-consume, no other record touched). -/
theorem spec9_consume_permanent (db : DB) (rid : Nat)
    (hwf : WellFormedRights db) (hex : ∃ r ∈ db.rights, r.id = rid) :
    (use_message_right db rid).1 = true ∧
    (∀ ops uid, rid ∉ (unusedRights (applyOps (use_message_right db rid).2 ops) uid).map
      (fun r => r.id)) ∧
    use_message_right (use_message_right db rid).2 rid =
      (true, (use_message_right db rid).2) := by
  have hbase : ConsumedAt rid (use_message_right db rid).2 := by
    constructor
    · obtain ⟨r, hr, hrid⟩ := hex
      have := hwf r hr
      show rid < db.next_right_id
      omega
    · intro r hr hid
      simp only [use_message_right, List.mem_map] at hr
      obtain ⟨a, ha, hfa⟩ := hr
      by_cases hb : a.id == rid
      · rw [if_pos hb] at hfa
        rw [← hfa]
      · rw [if_neg hb] at hfa
        subst hfa
        simp [hid] at hb
  refine ⟨rfl, ?_, ?_⟩
  · intro ops uid hmem
    have hca := consumedAt_applyOps ops hbase
    rw [List.mem_map] at hmem
    obtain ⟨r, hr, hrid⟩ := hmem
    rw [unusedRights, List.mem_filter] at hr
    obtain ⟨hrr, hcond⟩ := hr
    have hused := hca.2 r hrr hrid
    simp [hused] at hcond
  · have hpoint : ∀ a ∈ (use_message_right db rid).2.rights,
        (if a.id == rid then { a with used := true } else a) = a := by
      intro a ha
      by_cases hb : a.id == rid
      · rw [if_pos hb]
        have hu := hbase.2 a ha (by simpa using hb)
        cases a
        simp_all
      · rw [if_neg hb]
    show (true, _) = (true, (use_message_right db rid).2)
    congr 1
    rw [List.map_congr_left hpoint, List.map_id']

/-- Witness for C9 at the one-right database `exDb9`. -/
theorem spec9_consume_permanent_witness :
    WellFormedRights exDb9 ∧ (∃ r ∈ exDb9.rights, r.id = 1) ∧
      ((use_message_right exDb9 1).1 = true ∧
        (∀ ops uid, (1 : Nat) ∉
          (unusedRights (applyOps (use_message_right exDb9 1).2 ops) uid).map
            (fun r => r.id)) ∧
        use_message_right (use_message_right exDb9 1).2 1 =
          (true, (use_message_right exDb9 1).2)) :=
  ⟨by unfold WellFormedRights; decide, by decide,
    spec9_consume_permanent exDb9 1 (by unfold WellFormedRights; decide) (by decide)⟩
